import Mathlib

/-!
# docker-pg-backup: a verification development

A shallow embedding of `src/config.go` and `src/pg_backup.go`.

* Go strings are modelled by Lean strings (sequences of code points).
* Go `error` values are modelled by `GoError`; `nil` is `none`.
* Everything the program observes from outside (the clock, the process
  runner, the file system, the storage sink, the cancellation context) is an
  explicit world parameter, and everything it does to the outside is
  recorded, in order, in a list of `Event`s.
-/

namespace PgBackup

/-! ## Errors and the `fmt` verbs used by the program -/

/-- Go error values: one produced outside the program (by `os`, `os/exec`,
the storage sink or the context), or one built by `fmt.Errorf` with `%w`,
which keeps its formatted message and the error it wraps. -/
inductive GoError where
  | external (msg : String)
  | wrapped (msg : String) (cause : GoError)
  deriving DecidableEq, Repr

namespace GoError

/-- The `Error()` method. -/
def message : GoError → String
  | external m => m
  | wrapped m _ => m

/-- The `Unwrap()` method (`errors.Unwrap`). -/
def unwrap : GoError → Option GoError
  | external _ => none
  | wrapped _ c => some c

/-- Whether `target` is on the `Unwrap` chain of the error (`errors.Is`). -/
def is : GoError → GoError → Bool
  | external m, target => decide (external m = target)
  | wrapped m c, target => decide (wrapped m c = target) || is c target

end GoError

/-- Operands handed to `fmt.Sprintf`, `fmt.Errorf` and `log.Printf`. -/
inductive Arg where
  | str (s : String)
  | int (n : Int)
  | bool (b : Bool)
  | duration (ns : Int)
  | err (e : Option GoError)
  deriving DecidableEq, Repr

/-- One verb of `fmt` applied to one operand: `%s` on a string, `%d` on an
integer, `%w` and `%v` on an error (its `Error()` text, `<nil>` for nil).
Any other pairing is rendered as Go's bad-verb marker without the operand. -/
def renderVerb (verb : Char) (a : Arg) : String :=
  match verb, a with
  | 's', .str s => s
  | 'v', .str s => s
  | 'd', .int n => toString n
  | 'v', .int n => toString n
  | 'w', .err (some e) => e.message
  | 'v', .err (some e) => e.message
  | 'w', .err none => "%!w(<nil>)"
  | 'v', .err none => "<nil>"
  | v, _ => "%!" ++ String.singleton v ++ "(BADVERB)"

/-- The text produced by `fmt.Sprintf format args...` for formats made of
literal text, `%%` and one-letter verbs without flags. -/
def sprintfChars : List Char → List Arg → String
  | [], _ => ""
  | '%' :: '%' :: rest, args => "%" ++ sprintfChars rest args
  | '%' :: v :: rest, a :: args => renderVerb v a ++ sprintfChars rest args
  | '%' :: v :: rest, [] => "%!" ++ String.singleton v ++ "(MISSING)" ++ sprintfChars rest []
  | c :: rest, args => String.singleton c ++ sprintfChars rest args

/-- Embedding of `fmt.Sprintf`. -/
def sprintf (format : String) (args : List Arg) : String :=
  sprintfChars format.toList args

/-- The operand of the first `%w` verb of a format that is given a non-nil
error: the error `fmt.Errorf` wraps. Verbs consume operands as in
`sprintfChars`. -/
def wrapOperand : List Char → List Arg → Option GoError
  | [], _ => none
  | '%' :: '%' :: rest, args => wrapOperand rest args
  | '%' :: 'w' :: _, .err (some e) :: _ => some e
  | '%' :: _ :: rest, _ :: args => wrapOperand rest args
  | '%' :: _ :: _, [] => none
  | _ :: rest, args => wrapOperand rest args

/-- Embedding of `fmt.Errorf`: the message is the `Sprintf` text, and the
error wraps the operand of `%w` when there is one. -/
def errorf (format : String) (args : List Arg) : GoError :=
  match wrapOperand format.toList args with
  | some e => .wrapped (sprintf format args) e
  | none => .external (sprintf format args)

/-! ## `time.Time.Format` -/

/-- A UTC instant as the civil fields `Time.Format` reads from it
(`absDate` and `absClock` of the instant). -/
structure Time where
  year : Int
  month : Nat
  day : Nat
  yday : Nat
  hour : Nat
  minute : Nat
  second : Nat
  deriving DecidableEq, Repr

/-- Go's `appendInt`: the decimal text of `x`, with a leading `-` when
negative, its digits left-padded with zeros to `width`. -/
def appendInt (x : Int) (width : Nat) : String :=
  let ds := Nat.toDigits 10 x.natAbs
  (if x < 0 then "-" else "") ++ String.mk (List.replicate (width - ds.length) '0' ++ ds)

/-- The layout chunks of package `time` that begin with a digit, `_` or
`-`. -/
inductive Std where
  | stdLongYear | stdYear
  | stdNumMonth | stdZeroMonth
  | stdDay | stdUnderDay | stdZeroDay
  | stdUnderYearDay | stdZeroYearDay
  | stdHour | stdHour12 | stdZeroHour12
  | stdMinute | stdZeroMinute
  | stdSecond | stdZeroSecond
  | stdNumTZ | stdNumColonTZ | stdNumSecondsTz | stdNumColonSecondsTZ | stdNumShortTZ
  deriving DecidableEq, Repr

/-- When `lit` starts `l`, what follows it (`strings.CutPrefix` on runes). -/
def cutLit : List Char → List Char → Option (List Char)
  | [], l => some l
  | _ :: _, [] => none
  | a :: as, b :: bs => if a = b then cutLit as bs else none

/-- The chunk starting at the head of the layout, if there is one, with the
layout that follows it. The second component counts leading characters that
go to the literal text before the chunk (the `_` of `_2006`). -/
def stdAtHead (layout : List Char) : Option (Nat × Std × List Char) :=
  match layout with
  | '0' :: rest =>
    match rest with
    | '1' :: r => some (0, .stdZeroMonth, r)
    | '2' :: r => some (0, .stdZeroDay, r)
    | '3' :: r => some (0, .stdZeroHour12, r)
    | '4' :: r => some (0, .stdZeroMinute, r)
    | '5' :: r => some (0, .stdZeroSecond, r)
    | '6' :: r => some (0, .stdYear, r)
    | '0' :: '2' :: r => some (0, .stdZeroYearDay, r)
    | _ => none
  | '1' :: rest =>
    match rest with
    | '5' :: r => some (0, .stdHour, r)
    | _ => some (0, .stdNumMonth, rest)
  | '2' :: rest =>
    match cutLit "006".toList rest with
    | some r => some (0, .stdLongYear, r)
    | none => some (0, .stdDay, rest)
  | '_' :: rest =>
    match rest with
    | '2' :: r =>
      match cutLit "006".toList r with
      | some r2 => some (1, .stdLongYear, r2)
      | none => some (0, .stdUnderDay, r)
    | '_' :: '2' :: r => some (0, .stdUnderYearDay, r)
    | _ => none
  | '3' :: rest => some (0, .stdHour12, rest)
  | '4' :: rest => some (0, .stdMinute, rest)
  | '5' :: rest => some (0, .stdSecond, rest)
  | '-' :: rest =>
    match cutLit "070000".toList rest with
    | some r => some (0, .stdNumSecondsTz, r)
    | none =>
    match cutLit "07:00:00".toList rest with
    | some r => some (0, .stdNumColonSecondsTZ, r)
    | none =>
    match cutLit "0700".toList rest with
    | some r => some (0, .stdNumTZ, r)
    | none =>
    match cutLit "07:00".toList rest with
    | some r => some (0, .stdNumColonTZ, r)
    | none =>
    match cutLit "07".toList rest with
    | some r => some (0, .stdNumShortTZ, r)
    | none => none
  | _ => none

/-- The text one chunk contributes for a UTC instant (zone offset zero). -/
def renderStd (t : Time) : Std → String
  | .stdLongYear => appendInt t.year 4
  | .stdYear => appendInt (Int.ofNat (t.year.natAbs % 100)) 2
  | .stdNumMonth => appendInt t.month 0
  | .stdZeroMonth => appendInt t.month 2
  | .stdDay => appendInt t.day 0
  | .stdUnderDay => (if t.day < 10 then " " else "") ++ appendInt t.day 0
  | .stdZeroDay => appendInt t.day 2
  | .stdUnderYearDay =>
    (if t.yday < 100 then (if t.yday < 10 then "  " else " ") else "") ++ appendInt t.yday 0
  | .stdZeroYearDay => appendInt t.yday 3
  | .stdHour => appendInt t.hour 2
  | .stdHour12 => appendInt (if t.hour % 12 = 0 then 12 else t.hour % 12 : Nat) 0
  | .stdZeroHour12 => appendInt (if t.hour % 12 = 0 then 12 else t.hour % 12 : Nat) 2
  | .stdMinute => appendInt t.minute 0
  | .stdZeroMinute => appendInt t.minute 2
  | .stdSecond => appendInt t.second 0
  | .stdZeroSecond => appendInt t.second 2
  | .stdNumTZ => "+0000"
  | .stdNumColonTZ => "+00:00"
  | .stdNumSecondsTz => "+000000"
  | .stdNumColonSecondsTZ => "+00:00:00"
  | .stdNumShortTZ => "+00"

/-- The loop of `Time.appendFormat`: literal text is copied, each chunk is
replaced by its rendering. The fuel bounds the number of steps; the length
of the layout is always enough since every step consumes a character. -/
def formatChars (t : Time) : Nat → List Char → String
  | 0, _ => ""
  | _, [] => ""
  | fuel + 1, c :: rest =>
    match stdAtHead (c :: rest) with
    | some (k, std, after) =>
      String.mk ((c :: rest).take k) ++ renderStd t std ++ formatChars t fuel after
    | none => String.singleton c ++ formatChars t fuel rest

/-- Embedding of `Time.Format` for UTC instants and layouts written with
digits, `_`, `-` and characters that start no chunk. -/
def Time.format (t : Time) (layout : String) : String :=
  formatChars t layout.length layout.toList

/-! ## `config.go` -/

/-- The fields of `Config` the backup engine reads. -/
structure Config where
  PGHost : String
  PGPort : String
  PGUser : String
  PGPassword : String
  PGDatabase : String
  Compression : Bool
  PGDumpFormat : String
  PGDumpOptions : String
  deriving DecidableEq, Repr

/-- Lookup in a Go `map[string]bool`: the zero value `false` when absent. -/
def mapLookup (m : List (String × Bool)) (k : String) : Bool :=
  match m.find? (fun kv => kv.1 == k) with
  | some kv => kv.2
  | none => false

/-- Embedding of `Config.validate`. -/
def Config.validate (c : Config) : Option GoError :=
  let validFormats := [("plain", true), ("custom", true), ("directory", true), ("tar", true)]
  if !mapLookup validFormats c.PGDumpFormat then
    some (.external "PGDUMP_FORMAT must be 'plain', 'custom', 'directory', or 'tar'")
  else
    none

/-- Embedding of `Config.GetBackupExtension`. -/
def Config.GetBackupExtension (c : Config) : String :=
  if c.PGDumpFormat = "plain" then
    if c.Compression then ".sql.gz" else ".sql"
  else if c.PGDumpFormat = "custom" then ".dump"
  else if c.PGDumpFormat = "tar" then ".tar"
  else if c.PGDumpFormat = "directory" then ""
  else ".dump"

/-- Embedding of `PGBackup.generateBackupName`; `now` is `time.Now().UTC()`. -/
def generateBackupName (cfg : Config) (now : Time) : String :=
  let timestamp := now.format "2006-01-02_15-04-05"
  let ext := cfg.GetBackupExtension
  sprintf "pg-backup_%s_%s%s" [.str cfg.PGDatabase, .str timestamp, .str ext]

/-! ## The outside world and the trace of effects -/

/-- Where the standard output of a subprocess goes: nowhere (the field is
left unset), into the file created at a path, or into a pipe read by the
program. -/
inductive StdoutTarget where
  | unset
  | file (path : String)
  | pipe
  deriving DecidableEq, Repr

/-- An `exec.Cmd` as configured by the program: the executable, its
arguments, the environment when it is set explicitly (`none` inherits the
host environment), the target of standard output, and whether standard
error is forwarded to the host error stream. -/
structure Cmd where
  name : String
  args : List String
  env : Option (List String)
  stdout : StdoutTarget
  stderrToHost : Bool
  deriving DecidableEq, Repr

/-- The assignment `cmd.Stdout = ...` (for a pipe, `cmd.StdoutPipe()`). -/
def Cmd.setStdout (c : Cmd) (t : StdoutTarget) : Cmd := { c with stdout := t }

/-- The assignment `cmd.Stderr = os.Stderr`. -/
def Cmd.setStderrToHost (c : Cmd) : Cmd := { c with stderrToHost := true }

/-- Effects of the program on the outside world, in program order. -/
inductive Event where
  | logPrintln (msg : String)
  | logPrintf (format : String) (args : List Arg)
  | cmdRun (cmd : Cmd)
  | cmdRunRefused (cmd : Cmd)
  | sleep (ns : Int)
  | osCreate (path : String)
  | gzipNewWriter
  | stdoutPipe
  | cmdStart (cmd : Cmd)
  | ioCopy
  | cmdWait
  | gzClose
  | fileClose
  | upload (path : String) (name : String)
  | osRemove (path : String)
  deriving DecidableEq, Repr

/-- How a function call ends: it returns its `error` result, or it panics. -/
inductive Outcome where
  | returned (err : Option GoError)
  | panicked (msg : String)
  deriving DecidableEq, Repr

/-- The error `ctx.Err()` of a cancelled context. -/
def contextCanceled : GoError := .external "context canceled"

/-! ## `PGBackup.TestConnection` -/

/-- What `TestConnection` observes: the result of the n-th `pg_isready`
process that is started (counted from 0, `none` for exit status 0), and the
loop iteration during whose sleep the caller cancels the context (`none`
when the context is never cancelled). Cancellation at other moments, before
the call or while a probe is running, is not part of this world. -/
structure ProbeWorld where
  probe : Nat → Option GoError
  cancelledInWait : Option Nat

/-- One `time.Second`, in nanoseconds (`time.Duration` is an `int64`). -/
def second : Int := 1000000000

/-- Reduction of an integer to the range of `int64`. -/
def wrapInt64 (x : Int) : Int := (x + 2 ^ 63) % 2 ^ 64 - 2 ^ 63

/-- The `waitTime` computed in loop iteration `i` of `TestConnection`. -/
def waitTime (i : Nat) : Int :=
  let waitTime := wrapInt64 (wrapInt64 (wrapInt64 ((i : Int) + 1) * 2) * second)
  if waitTime > wrapInt64 (30 * second) then wrapInt64 (30 * second) else waitTime

/-- The command built in each iteration of `TestConnection`. -/
def pgIsReadyCmd (cfg : Config) : Cmd :=
  { name := "pg_isready"
    args := ["-h", cfg.PGHost, "-p", cfg.PGPort, "-U", cfg.PGUser]
    env := none
    stdout := .unset
    stderrToHost := false }

/-- The `for i := 0; i < maxRetries; i++` loop of `TestConnection` together
with the final `return`. `remaining` is `maxRetries - i`, the number of
iterations still to run; `started` counts the processes started so far and
`ctxDone` tells whether the context is already cancelled. A command run
under a cancelled context returns `ctx.Err()` without starting a process. -/
def testConnectionLoop (cfg : Config) (w : ProbeWorld) (maxRetries : Nat) :
    Nat → Nat → Option GoError → Nat → Bool → Option GoError × List Event
  | 0, _, lastErr, _, _ =>
    (some (errorf "failed to connect to PostgreSQL after %d attempts: %w"
      [.int maxRetries, .err lastErr]), [])
  | remaining + 1, i, _, started, ctxDone =>
    let cmd := pgIsReadyCmd cfg
    let err := if ctxDone then some contextCanceled else w.probe started
    let ev := if ctxDone then Event.cmdRunRefused cmd else Event.cmdRun cmd
    let started1 := if ctxDone then started else started + 1
    match err with
    | none => (none, [ev])
    | some e =>
      let lastErr := some e
      let wt := waitTime i
      let rest := testConnectionLoop cfg w maxRetries remaining (i + 1) lastErr started1
        (ctxDone || w.cancelledInWait == some i)
      (rest.1,
        ev :: .logPrintf "Failed to connect to PostgreSQL (attempt %d/%d): %v. Retrying in %s..."
          [.int (i + 1), .int maxRetries, .err lastErr, .duration wt] :: .sleep wt :: rest.2)

/-- Embedding of `PGBackup.TestConnection`; the context is not cancelled
when the call starts. -/
def TestConnection (cfg : Config) (w : ProbeWorld) : Option GoError × List Event :=
  let maxRetries := 10
  let r := testConnectionLoop cfg w maxRetries maxRetries 0 none 0 false
  (r.1, .logPrintln "Testing PostgreSQL connection..." :: r.2)

/-- The probe processes started in a trace. -/
def probeRuns (tr : List Event) : List Cmd :=
  tr.filterMap (fun e => match e with | .cmdRun c => some c | _ => none)

/-- The calls of `cmd.Run` that returned without starting a process. -/
def refusedRuns (tr : List Event) : List Cmd :=
  tr.filterMap (fun e => match e with | .cmdRunRefused c => some c | _ => none)

/-- The durations slept in a trace, in order. -/
def sleeps (tr : List Event) : List Int :=
  tr.filterMap (fun e => match e with | .sleep d => some d | _ => none)


/-! ## `PGBackup.runPgDump` and `PGBackup.runPgDumpWithGzip` -/

/-- Go's `unicode.IsSpace`. -/
def isSpace (c : Char) : Bool :=
  let n := c.toNat
  n == 0x09 || n == 0x0A || n == 0x0B || n == 0x0C || n == 0x0D || n == 0x20 ||
  n == 0x85 || n == 0xA0 || n == 0x1680 || (0x2000 ≤ n && n ≤ 0x200A) ||
  n == 0x2028 || n == 0x2029 || n == 0x202F || n == 0x205F || n == 0x3000

/-- The scan of `strings.Fields`: `cur` is the field being read. -/
def fieldsChars : List Char → List Char → List String
  | [], cur => if cur.isEmpty then [] else [String.mk cur]
  | c :: cs, cur =>
    if isSpace c then
      if cur.isEmpty then fieldsChars cs [] else String.mk cur :: fieldsChars cs []
    else fieldsChars cs (cur ++ [c])

/-- Embedding of `strings.Fields`. -/
def fields (s : String) : List String := fieldsChars s.toList []

/-- The first byte of the UTF-8 encoding of a character. -/
def utf8FirstByte (c : Char) : Nat :=
  let n := c.toNat
  if n < 0x80 then n
  else if n < 0x800 then 0xC0 + n / 0x40
  else if n < 0x10000 then 0xE0 + n / 0x1000
  else 0xF0 + n / 0x40000

/-- The expression `s[0]`: the first byte of the string, or `none` when the
index is out of range (a run-time panic). -/
def byteAt0 (s : String) : Option Nat :=
  match s.toList with
  | [] => none
  | c :: _ => some (utf8FirstByte c)

/-- The conversion `string(b)` of a byte: the text of the code point `b`. -/
def stringOfByte (b : Nat) : String := String.singleton (Char.ofNat b)

/-- The `args` slice built by `runPgDump`, `none` when indexing the format
string panics. -/
def pgDumpArgs (cfg : Config) (outputPath : String) : Option (List String) :=
  let args := ["-h", cfg.PGHost, "-p", cfg.PGPort, "-U", cfg.PGUser, "-d", cfg.PGDatabase]
  match byteAt0 cfg.PGDumpFormat with
  | none => none
  | some b =>
    let args := args ++ ["-F", stringOfByte b]
    let args := if cfg.PGDumpFormat ≠ "plain" then args ++ ["-f", outputPath] else args
    let args := if cfg.PGDumpOptions ≠ "" then args ++ fields cfg.PGDumpOptions else args
    some args

/-- What the dump step observes: the host environment and the results of
the file, pipe, process and stream operations it performs. -/
structure DumpWorld where
  environ : List String
  osCreate : String → Option GoError
  stdoutPipe : Cmd → Option GoError
  cmdStart : Cmd → Option GoError
  ioCopy : Option GoError
  cmdWait : Option GoError
  cmdRun : Cmd → Option GoError
  gzClose : Option GoError
  fileClose : Option GoError

/-- The statements of `runPgDumpWithGzip` after the two `defer`s: the value
returned, the final value of the variable `err`, and the effects. -/
def gzipBody (w : DumpWorld) (cmd : Cmd) : Option GoError × Option GoError × List Event :=
  match w.stdoutPipe cmd with
  | some err =>
    (some (errorf "failed to create stdout pipe: %w" [.err (some err)]), some err, [.stdoutPipe])
  | none =>
    let cmd := (cmd.setStdout .pipe).setStderrToHost
    match w.cmdStart cmd with
    | some err =>
      (some (errorf "failed to start pg_dump: %w" [.err (some err)]), some err,
        [.stdoutPipe, .cmdStart cmd])
    | none =>
      match w.ioCopy with
      | some err =>
        (some (errorf "failed to compress output: %w" [.err (some err)]), some err,
          [.stdoutPipe, .cmdStart cmd, .ioCopy])
      | none =>
        match w.cmdWait with
        | some err =>
          (some (errorf "pg_dump failed: %w" [.err (some err)]), some err,
            [.stdoutPipe, .cmdStart cmd, .ioCopy, .cmdWait])
        | none => (none, none, [.stdoutPipe, .cmdStart cmd, .ioCopy, .cmdWait])

/-- The deferred close of the gzip writer. -/
def deferGzClose (w : DumpWorld) : List Event :=
  .gzClose ::
    match w.gzClose with
    | some e => [.logPrintf "Warning: failed to close gzip writer: %v" [.err (some e)]]
    | none => []

/-- The deferred close of the output file; it logs when the enclosing
function's variable `err` is not nil. -/
def deferFileClose (w : DumpWorld) (err : Option GoError) : List Event :=
  .fileClose ::
    match err with
    | some _ => [.logPrintf "Warning: failed to close output file: %v" [.err w.fileClose]]
    | none => []

/-- Embedding of `PGBackup.runPgDumpWithGzip`. Deferred calls run when the
function returns, last registered first. -/
def runPgDumpWithGzip (w : DumpWorld) (cmd : Cmd) (outputPath : String) :
    Option GoError × List Event :=
  match w.osCreate outputPath with
  | some err =>
    (some (errorf "failed to create output file: %w" [.err (some err)]), [.osCreate outputPath])
  | none =>
    let body := gzipBody w cmd
    (body.1,
      [.osCreate outputPath, .gzipNewWriter] ++ body.2.2 ++ deferGzClose w ++
        deferFileClose w body.2.1)

/-- The command `runPgDump` builds: `pg_dump` with the arguments and with
`PGPASSWORD` appended to the host environment. -/
def pgDumpCmd (cfg : Config) (w : DumpWorld) (args : List String) : Cmd :=
  { name := "pg_dump"
    args := args
    env := some (w.environ ++ [sprintf "PGPASSWORD=%s" [.str cfg.PGPassword]])
    stdout := .unset
    stderrToHost := false }

/-- Embedding of `PGBackup.runPgDump`. -/
def runPgDump (cfg : Config) (w : DumpWorld) (outputPath : String) : Outcome × List Event :=
  let ev0 := Event.logPrintf "Running pg_dump for database '%s'..." [.str cfg.PGDatabase]
  match pgDumpArgs cfg outputPath with
  | none => (.panicked "index out of range [0] with length 0", [ev0])
  | some args =>
    let cmd := pgDumpCmd cfg w args
    if cfg.PGDumpFormat = "plain" then
      if cfg.Compression then
        let r := runPgDumpWithGzip w cmd outputPath
        (.returned r.1, ev0 :: r.2)
      else
        match w.osCreate outputPath with
        | some err =>
          (.returned (some (errorf "failed to create output file: %w" [.err (some err)])),
            [ev0, .osCreate outputPath])
        | none =>
          let cmd := (cmd.setStdout (.file outputPath)).setStderrToHost
          match w.cmdRun cmd with
          | some err =>
            (.returned (some (errorf "pg_dump failed: %w" [.err (some err)])),
              [ev0, .osCreate outputPath, .cmdRun cmd] ++ deferFileClose w (some err))
          | none =>
            (.returned none,
              [ev0, .osCreate outputPath, .cmdRun cmd,
                .logPrintln "pg_dump completed successfully"] ++ deferFileClose w none)
    else
      let cmd := cmd.setStderrToHost
      match w.cmdRun cmd with
      | some err =>
        (.returned (some (errorf "pg_dump failed: %w" [.err (some err)])), [ev0, .cmdRun cmd])
      | none => (.returned none, [ev0, .cmdRun cmd, .logPrintln "pg_dump completed successfully"])

/-! ## `PGBackup.Run` -/

/-- What `Run` observes: the clock, the temporary directory, the function
`filepath.Join`, the world of the dump step, the storage sink set with
`SetStorage` (its `Upload` result and its `Type` label) and the result of
`os.Remove`. -/
structure RunWorld where
  now : Time
  tempDir : String
  join : String → String → String
  dump : DumpWorld
  upload : String → String → Option GoError
  storageType : String
  osRemove : String → Option GoError

/-- The deferred removal of the temp file registered by `Run`. -/
def deferRemove (w : RunWorld) (name : String) : List Event :=
  .osRemove name ::
    match w.osRemove name with
    | some e =>
      [.logPrintf "Warning: failed to remove temp file %s: %v" [.str name, .err (some e)]]
    | none => []

/-- Embedding of `PGBackup.Run`. -/
def Run (cfg : Config) (w : RunWorld) : Outcome × List Event :=
  let ev0 := Event.logPrintln "Starting backup process..."
  let backupName := generateBackupName cfg w.now
  let tempFile := w.join w.tempDir backupName
  let d := runPgDump cfg w.dump tempFile
  match d.1 with
  | .panicked m => (.panicked m, ev0 :: d.2 ++ deferRemove w tempFile)
  | .returned (some err) =>
    (.returned (some (errorf "failed to run pg_dump: %w" [.err (some err)])),
      ev0 :: d.2 ++ deferRemove w tempFile)
  | .returned none =>
    match w.upload tempFile backupName with
    | some err =>
      (.returned (some (errorf "failed to upload backup: %w" [.err (some err)])),
        ev0 :: d.2 ++ [.upload tempFile backupName] ++ deferRemove w tempFile)
    | none =>
      (.returned none,
        ev0 :: d.2 ++
          [.upload tempFile backupName,
            .logPrintf "Backup completed successfully: %s (storage: %s)"
              [.str backupName, .str w.storageType]] ++ deferRemove w tempFile)

/-- The calls of the storage sink's `Upload` in a trace, in order. -/
def uploads (tr : List Event) : List (String × String) :=
  tr.filterMap (fun e => match e with | .upload p n => some (p, n) | _ => none)

/-- The paths handed to `os.Remove` in a trace, in order. -/
def removals (tr : List Event) : List String :=
  tr.filterMap (fun e => match e with | .osRemove p => some p | _ => none)

/-- The subprocesses started in a trace (`cmd.Run` or `cmd.Start`). -/
def startedCmds (tr : List Event) : List Cmd :=
  tr.filterMap (fun e =>
    match e with
    | .cmdRun c => some c
    | .cmdStart c => some c
    | _ => none)


/-! ## Worlds used as concrete inputs -/

/-- A configuration with the defaults of `config.go` and database `appdb`. -/
def sampleConfig : Config :=
  { PGHost := "localhost", PGPort := "5432", PGUser := "postgres", PGPassword := "secret",
    PGDatabase := "appdb", Compression := true, PGDumpFormat := "custom",
    PGDumpOptions := "" }

/-- The error of a process that exits with status 2. -/
def exitStatus2 : GoError := .external "exit status 2"

/-- A world in which every probe exits with status 2 and the context is
never cancelled. -/
def alwaysFailing : ProbeWorld :=
  { probe := fun _ => some exitStatus2, cancelledInWait := none }

/-- A world in which the first two probes fail and the third succeeds. -/
def succeedsOnThird : ProbeWorld :=
  { probe := fun n => if n < 2 then some exitStatus2 else none, cancelledInWait := none }

/-- A world in which every probe fails and the caller cancels the context
during the wait that follows the first failed attempt. -/
def cancelledInFirstWait : ProbeWorld :=
  { probe := fun _ => some exitStatus2, cancelledInWait := some 0 }

/-- A world in which every probe fails and the caller cancels the context
during the wait that follows the tenth failed attempt. -/
def cancelledInLastWait : ProbeWorld :=
  { probe := fun _ => some exitStatus2, cancelledInWait := some 9 }

/-- A dump world in which every operation succeeds. -/
def healthyDump : DumpWorld :=
  { environ := ["PATH=/usr/bin"]
    osCreate := fun _ => none
    stdoutPipe := fun _ => none
    cmdStart := fun _ => none
    ioCopy := none
    cmdWait := none
    cmdRun := fun _ => none
    gzClose := none
    fileClose := none }

/-- A dump world in which the dump process exits with status 2. -/
def failingDump : DumpWorld :=
  { healthyDump with cmdRun := fun _ => some exitStatus2, cmdWait := some exitStatus2 }

/-- A dump world in which the dump process cannot be started. -/
def startFails : DumpWorld :=
  { healthyDump with cmdStart := fun _ => some (.external "pg_dump: executable file not found") }

/-- A run world around a dump world: a fixed clock, `/tmp` as temporary
directory, a join that puts a slash between its operands, and a storage
sink with the given `Upload` result. -/
def sampleRun (dump : DumpWorld) (uploadResult : Option GoError) : RunWorld :=
  { now := { year := 2024, month := 3, day := 5, yday := 65, hour := 7, minute := 8, second := 9 }
    tempDir := "/tmp"
    join := fun a b => a ++ "/" ++ b
    dump := dump
    upload := fun _ _ => uploadResult
    storageType := "s3"
    osRemove := fun _ => none }

/-- The command `runPgDump` hands to `runPgDumpWithGzip` for a compressed
plain dump of `sampleConfig`. -/
def sampleDumpCmd : Cmd :=
  { name := "pg_dump"
    args := ["-h", "localhost", "-p", "5432", "-U", "postgres", "-d", "appdb", "-F", "p"]
    env := some ["PATH=/usr/bin", "PGPASSWORD=secret"]
    stdout := .unset
    stderrToHost := false }

/-- The sample configuration with extra `pg_dump` options set. -/
def sampleConfigWithOptions : Config :=
  { sampleConfig with PGDumpOptions := "  --no-owner \t -Z 9 " }

/-- A dump world in which the dump process is started and exits with
status 2 after its output has been copied. -/
def waitFails : DumpWorld :=
  { healthyDump with cmdWait := some exitStatus2 }

/-! # Theorems -/

/-! ## Formatting lemmas -/

/-- The layout of `generateBackupName`, chunk by chunk, as the formatting
loop leaves it. -/
theorem format_backup_layout_raw (t : Time) :
    t.format "2006-01-02_15-04-05" =
      String.mk [] ++ appendInt t.year 4 ++ ("-" ++ (String.mk [] ++ appendInt t.month 2 ++
      ("-" ++ (String.mk [] ++ appendInt t.day 2 ++ ("_" ++ (String.mk [] ++ appendInt t.hour 2 ++
      ("-" ++ (String.mk [] ++ appendInt t.minute 2 ++ ("-" ++ (String.mk [] ++
      appendInt t.second 2 ++ "")))))))))) := rfl

/-- The timestamp of a backup name is year, month, day, hour, minute and
second, each written by `appendInt` (width 4 for the year, 2 otherwise). -/
theorem format_backup_layout (t : Time) :
    t.format "2006-01-02_15-04-05" =
      appendInt t.year 4 ++ "-" ++ appendInt t.month 2 ++ "-" ++ appendInt t.day 2 ++ "_" ++
        appendInt t.hour 2 ++ "-" ++ appendInt t.minute 2 ++ "-" ++ appendInt t.second 2 := by
  rw [format_backup_layout_raw]
  apply String.ext
  simp [String.data_append]

/-- The format of `generateBackupName`, verb by verb, as the formatting loop
leaves it. -/
theorem sprintf_backup_name_raw (a b c : String) :
    sprintf "pg-backup_%s_%s%s" [.str a, .str b, .str c] =
      "p" ++ ("g" ++ ("-" ++ ("b" ++ ("a" ++ ("c" ++ ("k" ++ ("u" ++ ("p" ++ ("_" ++ (a ++ ("_" ++
        (b ++ (c ++ ""))))))))))))) := rfl

/-- The format of `generateBackupName` puts its three operands after
`pg-backup_`, with `_` between the first two. -/
theorem sprintf_backup_name (a b c : String) :
    sprintf "pg-backup_%s_%s%s" [.str a, .str b, .str c] = "pg-backup_" ++ a ++ "_" ++ b ++ c := by
  rw [sprintf_backup_name_raw]
  apply String.ext
  simp [String.data_append]

/-- A natural number below `10 ^ w` is written by `appendInt` with exactly
`w` characters. -/
theorem appendInt_length (n w : Nat) (hw : 0 < w) (h : n < 10 ^ w) :
    (appendInt (n : Int) w).length = w := by
  have hlen : (Nat.toDigits 10 n).length ≤ w :=
    Nat.toDigitsCore_length 10 (by decide) (n + 1) n w h hw
  have hneg : ¬ ((n : Int) < 0) := by omega
  simp only [appendInt, hneg, if_false, Int.natAbs_ofNat, String.length_append]
  simp [String.length]
  omega

/-- The extension for each of the four formats. -/
theorem getBackupExtension_table (cfg : Config)
    (hfmt : cfg.PGDumpFormat = "plain" ∨ cfg.PGDumpFormat = "custom" ∨
      cfg.PGDumpFormat = "directory" ∨ cfg.PGDumpFormat = "tar") :
    cfg.GetBackupExtension =
      (if cfg.PGDumpFormat = "plain" then (if cfg.Compression = true then ".sql.gz" else ".sql")
       else if cfg.PGDumpFormat = "custom" then ".dump"
       else if cfg.PGDumpFormat = "tar" then ".tar"
       else "") := by
  rcases hfmt with h | h | h | h <;> simp [Config.GetBackupExtension, h]

/-- C1: for every database name, UTC instant, format among plain, custom,
directory and tar, and compression flag, `generateBackupName` returns
`pg-backup_`, the database name, `_`, the timestamp
`YYYY-MM-DD_HH-MM-SS` (each field zero-padded by `appendInt`) and the
extension `GetBackupExtension` returns, which is `.sql.gz` for plain with
compression, `.sql` for plain without, `.dump` for custom, `.tar` for tar and
empty for directory; for fields in calendar range the timestamp has exactly
19 characters. -/
theorem generateBackupName_spec (cfg : Config) (t : Time)
    (hfmt : cfg.PGDumpFormat = "plain" ∨ cfg.PGDumpFormat = "custom" ∨
      cfg.PGDumpFormat = "directory" ∨ cfg.PGDumpFormat = "tar") :
    generateBackupName cfg t =
        "pg-backup_" ++ cfg.PGDatabase ++ "_" ++
          (appendInt t.year 4 ++ "-" ++ appendInt t.month 2 ++ "-" ++ appendInt t.day 2 ++ "_" ++
            appendInt t.hour 2 ++ "-" ++ appendInt t.minute 2 ++ "-" ++ appendInt t.second 2) ++
          cfg.GetBackupExtension ∧
    cfg.GetBackupExtension =
      (if cfg.PGDumpFormat = "plain" then (if cfg.Compression = true then ".sql.gz" else ".sql")
       else if cfg.PGDumpFormat = "custom" then ".dump"
       else if cfg.PGDumpFormat = "tar" then ".tar"
       else "") ∧
    (0 ≤ t.year → t.year < 10000 → t.month < 100 → t.day < 100 → t.hour < 100 →
      t.minute < 100 → t.second < 100 →
      (appendInt t.year 4 ++ "-" ++ appendInt t.month 2 ++ "-" ++ appendInt t.day 2 ++ "_" ++
        appendInt t.hour 2 ++ "-" ++ appendInt t.minute 2 ++ "-" ++
        appendInt t.second 2).length = 19) := by
  refine ⟨?_, getBackupExtension_table cfg hfmt, ?_⟩
  · simp only [generateBackupName]
    rw [sprintf_backup_name, format_backup_layout]
  · intro hy0 hy hmo hd hh hmi hs
    obtain ⟨y, hy'⟩ := Int.eq_ofNat_of_zero_le hy0
    rw [hy']
    rw [hy'] at hy
    simp only [String.length_append]
    rw [appendInt_length y 4 (by decide) (by omega), appendInt_length _ 2 (by decide) (by omega),
      appendInt_length _ 2 (by decide) (by omega), appendInt_length _ 2 (by decide) (by omega),
      appendInt_length _ 2 (by decide) (by omega), appendInt_length _ 2 (by decide) (by omega)]
    rfl

/-- A compressed plain dump of `appdb` taken on 2024-03-05 at 07:08:09 UTC. -/
theorem generateBackupName_spec_witness :
    generateBackupName
      { PGHost := "db", PGPort := "5432", PGUser := "postgres", PGPassword := "",
        PGDatabase := "appdb", Compression := true, PGDumpFormat := "plain",
        PGDumpOptions := "" }
      { year := 2024, month := 3, day := 5, yday := 65, hour := 7, minute := 8, second := 9 } =
      "pg-backup_appdb_2024-03-05_07-08-09.sql.gz" :=
  (generateBackupName_spec _ _ (Or.inl rfl)).1.trans (by decide)

/-! ## The retry loop of `TestConnection` -/

/-- While every probe fails and the context is never cancelled, the loop
runs all its remaining iterations: one process and one sleep each. -/
theorem loop_all_fail (cfg : Config) (w : ProbeWorld) (M : Nat)
    (hfail : ∀ n, w.probe n ≠ none) (hctx : w.cancelledInWait = none) :
    ∀ (remaining i : Nat) (lastErr : Option GoError) (started : Nat),
      (testConnectionLoop cfg w M remaining i lastErr started false).1 =
          some (errorf "failed to connect to PostgreSQL after %d attempts: %w"
            [.int M, .err (if remaining = 0 then lastErr else w.probe (started + remaining - 1))]) ∧
      probeRuns (testConnectionLoop cfg w M remaining i lastErr started false).2 =
          List.replicate remaining (pgIsReadyCmd cfg) ∧
      refusedRuns (testConnectionLoop cfg w M remaining i lastErr started false).2 = [] ∧
      sleeps (testConnectionLoop cfg w M remaining i lastErr started false).2 =
          (List.range' i remaining).map waitTime := by
  intro remaining
  induction remaining with
  | zero =>
    intro i lastErr started
    simp [testConnectionLoop, probeRuns, refusedRuns, sleeps]
  | succ k ih =>
    intro i lastErr started
    obtain ⟨e, he⟩ := Option.ne_none_iff_exists'.mp (hfail started)
    obtain ⟨h1, h2, h3, h4⟩ := ih (i + 1) (some e) (started + 1)
    simp only [probeRuns, refusedRuns, sleeps] at h2 h3 h4
    simp only [testConnectionLoop, he, hctx, Bool.false_eq_true, if_false]
    have hb : (false || (none : Option Nat) == some i) = false := by simp
    simp only [hb]
    refine ⟨?_, ?_, ?_, ?_⟩
    · rw [h1]
      cases k with
      | zero => simp [he]
      | succ k =>
        have e1 : started + 1 + (k + 1) - 1 = started + (k + 1 + 1) - 1 := by omega
        rw [if_neg (Nat.succ_ne_zero _), if_neg (Nat.succ_ne_zero _), e1]
    · simp only [probeRuns, List.filterMap_cons, h2, List.replicate_succ]
    · simp only [refusedRuns, List.filterMap_cons, h3]
    · simp only [sleeps, List.filterMap_cons, h4, List.range'_succ, List.map_cons]

/-- Putting an element in front of a list leaves its last element. -/
theorem getLast?_cons_of_some {α : Type} (a : α) {l : List α} {x : α}
    (h : l.getLast? = some x) : (a :: l).getLast? = some x := by
  cases l with
  | nil => simp at h
  | cons b l => rw [List.getLast?_cons_cons]; exact h

/-- While every probe fails and the context is never cancelled, the last
effect of a loop with iterations left is the sleep of its last iteration. -/
theorem loop_all_fail_last (cfg : Config) (w : ProbeWorld) (M : Nat)
    (hfail : ∀ n, w.probe n ≠ none) (hctx : w.cancelledInWait = none) :
    ∀ (remaining i : Nat) (lastErr : Option GoError) (started : Nat),
      (testConnectionLoop cfg w M (remaining + 1) i lastErr started false).2.getLast? =
        some (.sleep (waitTime (i + remaining))) := by
  intro remaining
  induction remaining with
  | zero =>
    intro i lastErr started
    obtain ⟨e, he⟩ := Option.ne_none_iff_exists'.mp (hfail started)
    simp [testConnectionLoop, he]
  | succ k ih =>
    intro i lastErr started
    obtain ⟨e, he⟩ := Option.ne_none_iff_exists'.mp (hfail started)
    have h := ih (i + 1) (some e) (started + 1)
    have hb : (false || (none : Option Nat) == some i) = false := by simp
    rw [testConnectionLoop]
    simp only [he, hctx, Bool.false_eq_true, if_false, hb]
    rw [show i + (k + 1) = i + 1 + k by omega]
    exact getLast?_cons_of_some _ (getLast?_cons_of_some _ (getLast?_cons_of_some _ h))

/-- When the probe fails `j` times and then succeeds, with iterations to
spare and no cancellation, the loop starts `j + 1` processes, sleeps after
each of the `j` failures and returns nil. -/
theorem loop_first_success (cfg : Config) (w : ProbeWorld) (M : Nat)
    (hctx : w.cancelledInWait = none) :
    ∀ (j remaining i : Nat) (lastErr : Option GoError) (started : Nat),
      j < remaining → (∀ n, n < j → w.probe (started + n) ≠ none) →
      w.probe (started + j) = none →
      (testConnectionLoop cfg w M remaining i lastErr started false).1 = none ∧
      probeRuns (testConnectionLoop cfg w M remaining i lastErr started false).2 =
          List.replicate (j + 1) (pgIsReadyCmd cfg) ∧
      refusedRuns (testConnectionLoop cfg w M remaining i lastErr started false).2 = [] ∧
      sleeps (testConnectionLoop cfg w M remaining i lastErr started false).2 =
          (List.range' i j).map waitTime := by
  intro j
  induction j with
  | zero =>
    intro remaining i lastErr started hlt _ hok
    obtain ⟨k, rfl⟩ : ∃ k, remaining = k + 1 := ⟨remaining - 1, by omega⟩
    simp only [Nat.add_zero] at hok
    simp [testConnectionLoop, hok, probeRuns, refusedRuns, sleeps]
  | succ j ih =>
    intro remaining i lastErr started hlt hfail hok
    obtain ⟨k, rfl⟩ : ∃ k, remaining = k + 1 := ⟨remaining - 1, by omega⟩
    obtain ⟨e, he⟩ := Option.ne_none_iff_exists'.mp (hfail 0 (by omega))
    simp only [Nat.add_zero] at he
    obtain ⟨h1, h2, h3, h4⟩ := ih k (i + 1) (some e) (started + 1) (by omega)
      (fun n hn => by
        have := hfail (n + 1) (by omega)
        rwa [show started + (n + 1) = started + 1 + n by omega] at this)
      (by rwa [show started + (j + 1) = started + 1 + j by omega] at hok)
    simp only [probeRuns, refusedRuns, sleeps] at h2 h3 h4
    simp only [testConnectionLoop, he, hctx, Bool.false_eq_true, if_false]
    have hb : (false || (none : Option Nat) == some i) = false := by simp
    simp only [hb]
    refine ⟨h1, ?_, ?_, ?_⟩
    · simp only [probeRuns, List.filterMap_cons, h2, List.replicate_succ]
    · simp only [refusedRuns, List.filterMap_cons, h3]
    · simp only [sleeps, List.filterMap_cons, h4, List.range'_succ, List.map_cons]

/-- The error built after the last attempt: its text names ten attempts and
ends with the text of the error it wraps. -/
theorem errorf_connect (e : GoError) :
    errorf "failed to connect to PostgreSQL after %d attempts: %w"
        [.int ((10 : Nat) : Int), .err (some e)] =
      .wrapped ("failed to connect to PostgreSQL after 10 attempts: " ++ e.message) e := by
  have h10 : toString (10 : Int) = "10" := by decide
  have hs : sprintf "failed to connect to PostgreSQL after %d attempts: %w"
      [.int ((10 : Nat) : Int), .err (some e)] =
      "failed to connect to PostgreSQL after 10 attempts: " ++ e.message := by
    apply String.ext
    simp [sprintf, sprintfChars, renderVerb, String.data_append, h10]
  have hw : wrapOperand "failed to connect to PostgreSQL after %d attempts: %w".toList
      [.int ((10 : Nat) : Int), .err (some e)] = some e := rfl
  simp only [errorf, hw, hs]

/-- In any world, the loop sleeps after each failed attempt of the
iterations it runs: its sleeps are the waits of iterations `i`, `i + 1`,
... up to where it stops. -/
theorem loop_sleeps (cfg : Config) (w : ProbeWorld) (M : Nat) :
    ∀ (remaining i : Nat) (lastErr : Option GoError) (started : Nat) (ctxDone : Bool),
      ∃ j, j ≤ remaining ∧
        sleeps (testConnectionLoop cfg w M remaining i lastErr started ctxDone).2 =
          (List.range' i j).map waitTime := by
  intro remaining
  induction remaining with
  | zero =>
    intro i lastErr started ctxDone
    exact ⟨0, Nat.le_refl 0, by simp [testConnectionLoop, sleeps]⟩
  | succ k ih =>
    intro i lastErr started ctxDone
    rw [testConnectionLoop]
    cases ctxDone with
    | false =>
      simp only [Bool.false_eq_true, if_false]
      cases herr : w.probe started with
      | none => exact ⟨0, Nat.zero_le _, by simp [sleeps]⟩
      | some e =>
        obtain ⟨j, hj, hs⟩ := ih (i + 1) (some e) (started + 1)
          (false || w.cancelledInWait == some i)
        refine ⟨j + 1, by omega, ?_⟩
        simp only [sleeps] at hs
        simp only [sleeps, List.filterMap_cons, hs, List.range'_succ, List.map_cons]
    | true =>
      simp only [if_true]
      obtain ⟨j, hj, hs⟩ := ih (i + 1) (some contextCanceled) started
        (true || w.cancelledInWait == some i)
      refine ⟨j + 1, by omega, ?_⟩
      simp only [sleeps] at hs
      simp only [sleeps, List.filterMap_cons, hs, List.range'_succ, List.map_cons]

/-- Integers in the range of `int64` are left unchanged by the reduction. -/
theorem wrapInt64_of_range (x : Int) (h1 : -(2 ^ 63) ≤ x) (h2 : x < 2 ^ 63) :
    wrapInt64 x = x := by
  unfold wrapInt64
  rw [Int.emod_eq_of_lt (by omega) (by omega)]
  omega

/-- Without overflow the wait of iteration `i` is `(i + 1) * 2` seconds,
capped at 30 seconds. -/
theorem waitTime_eq_min (i : Nat) (h : i + 1 ≤ 4611686018) :
    waitTime i = min (((i : Int) + 1) * 2 * second) (30 * second) := by
  have hs : second = 1000000000 := rfl
  unfold waitTime
  simp only [hs]
  rw [wrapInt64_of_range ((i : Int) + 1) (by omega) (by omega),
    wrapInt64_of_range (((i : Int) + 1) * 2) (by omega) (by omega),
    wrapInt64_of_range (((i : Int) + 1) * 2 * 1000000000) (by omega) (by omega),
    wrapInt64_of_range (30 * 1000000000) (by decide) (by decide)]
  split
  · rw [min_eq_right (by omega)]
  · rw [min_eq_left (by omega)]

/-- Within the ten iterations the cap is not reached. -/
theorem waitTime_small (i : Nat) (h : i < 10) :
    waitTime i = ((i : Int) + 1) * 2 * second ∧ ((i : Int) + 1) * 2 * second < 30 * second := by
  have hs : second = 1000000000 := rfl
  have hlt : ((i : Int) + 1) * 2 * second < 30 * second := by rw [hs]; omega
  refine ⟨?_, hlt⟩
  rw [waitTime_eq_min i (by omega), min_eq_left (le_of_lt hlt)]

/-- The ten waits of a connection test in which every probe fails. -/
theorem ten_waits :
    (List.range' 0 10).map waitTime =
      [2 * second, 4 * second, 6 * second, 8 * second, 10 * second, 12 * second,
        14 * second, 16 * second, 18 * second, 20 * second] := by decide


/-! ## Claims on `TestConnection` -/

/-- C2: when every probe fails and the context is never cancelled,
`TestConnection` starts the probe exactly ten times and returns an error
whose text names ten attempts and which wraps the error of the tenth
probe. -/
theorem testConnection_always_failing (cfg : Config) (w : ProbeWorld)
    (hfail : ∀ n, w.probe n ≠ none) (hctx : w.cancelledInWait = none) :
    probeRuns (TestConnection cfg w).2 = List.replicate 10 (pgIsReadyCmd cfg) ∧
    refusedRuns (TestConnection cfg w).2 = [] ∧
    ∃ e, w.probe 9 = some e ∧
      (TestConnection cfg w).1 =
        some (.wrapped ("failed to connect to PostgreSQL after 10 attempts: " ++ e.message) e) ∧
      ((TestConnection cfg w).1.bind GoError.unwrap) = some e := by
  obtain ⟨h1, h2, h3, _⟩ := loop_all_fail cfg w 10 hfail hctx 10 0 none 0
  obtain ⟨e, he⟩ := Option.ne_none_iff_exists'.mp (hfail 9)
  have hres : (TestConnection cfg w).1 =
      some (.wrapped ("failed to connect to PostgreSQL after 10 attempts: " ++ e.message) e) := by
    simp only [TestConnection]
    rw [h1]
    simp only [show (10 : Nat) ≠ 0 by decide, if_false, show 0 + 10 - 1 = 9 by decide, he]
    rw [errorf_connect]
  refine ⟨?_, ?_, e, he, hres, ?_⟩
  · simpa [TestConnection, probeRuns] using h2
  · simpa [TestConnection, refusedRuns] using h3
  · rw [hres]; rfl

/-- Ten probes that exit with status 2: ten processes, and an error that
wraps the last exit status. -/
theorem testConnection_always_failing_witness :
    probeRuns (TestConnection sampleConfig alwaysFailing).2 =
        List.replicate 10 (pgIsReadyCmd sampleConfig) ∧
    refusedRuns (TestConnection sampleConfig alwaysFailing).2 = [] ∧
    ∃ e, alwaysFailing.probe 9 = some e ∧
      (TestConnection sampleConfig alwaysFailing).1 =
        some (.wrapped ("failed to connect to PostgreSQL after 10 attempts: " ++ e.message) e) ∧
      ((TestConnection sampleConfig alwaysFailing).1.bind GoError.unwrap) = some e :=
  testConnection_always_failing sampleConfig alwaysFailing
    (fun _ h => Option.noConfusion h) rfl

/-- C3: when the probe fails on invocations 1 to k-1 and succeeds on
invocation k, for k between 1 and 10, and the context is never cancelled,
`TestConnection` starts the probe exactly k times and returns nil. -/
theorem testConnection_succeeds_on_kth (cfg : Config) (w : ProbeWorld) (k : Nat)
    (hk1 : 1 ≤ k) (hk10 : k ≤ 10) (hfail : ∀ n, n < k - 1 → w.probe n ≠ none)
    (hok : w.probe (k - 1) = none) (hctx : w.cancelledInWait = none) :
    (TestConnection cfg w).1 = none ∧
    probeRuns (TestConnection cfg w).2 = List.replicate k (pgIsReadyCmd cfg) ∧
    refusedRuns (TestConnection cfg w).2 = [] := by
  obtain ⟨h1, h2, h3, _⟩ := loop_first_success cfg w 10 hctx (k - 1) 10 0 none 0 (by omega)
    (fun n hn => by simpa using hfail n hn) (by simpa using hok)
  rw [show k - 1 + 1 = k by omega] at h2
  refine ⟨?_, ?_, ?_⟩
  · simpa [TestConnection] using h1
  · simpa [TestConnection, probeRuns] using h2
  · simpa [TestConnection, refusedRuns] using h3

/-- Two failures and a success: three processes and no error. -/
theorem testConnection_succeeds_on_kth_witness :
    (TestConnection sampleConfig succeedsOnThird).1 = none ∧
    probeRuns (TestConnection sampleConfig succeedsOnThird).2 =
      List.replicate 3 (pgIsReadyCmd sampleConfig) ∧
    refusedRuns (TestConnection sampleConfig succeedsOnThird).2 = [] :=
  testConnection_succeeds_on_kth sampleConfig succeedsOnThird 3 (by decide) (by decide)
    (fun n hn => by simp [succeedsOnThird]; omega) (by simp [succeedsOnThird]) rfl


/-- C8: the wait computed after the i-th failed attempt is
`min (i * 2s) 30s` (as long as the `int64` product does not overflow); for
i from 1 to 10 it is exactly `i * 2` seconds, below the 30 second cap and
at most 20 seconds, the value reached at attempt 10; and every duration
`TestConnection` sleeps, in any world, is one of these ten. -/
theorem waitTime_backoff :
    (∀ i : Nat, 1 ≤ i → i ≤ 4611686018 →
      waitTime (i - 1) = min ((i : Int) * 2 * second) (30 * second)) ∧
    (∀ i : Nat, 1 ≤ i → i ≤ 10 →
      waitTime (i - 1) = (i : Int) * 2 * second ∧ (i : Int) * 2 * second < 30 * second ∧
        waitTime (i - 1) ≤ 20 * second) ∧
    waitTime 9 = 20 * second ∧
    (∀ (cfg : Config) (w : ProbeWorld) (d : Int), d ∈ sleeps (TestConnection cfg w).2 →
      ∃ i : Nat, 1 ≤ i ∧ i ≤ 10 ∧ d = waitTime (i - 1) ∧ d = (i : Int) * 2 * second) := by
  have hs : second = 1000000000 := rfl
  refine ⟨?_, ?_, by decide, ?_⟩
  · intro i h1 h2
    have h := waitTime_eq_min (i - 1) (by omega)
    rwa [show ((i - 1 : Nat) : Int) + 1 = (i : Int) by omega] at h
  · intro i h1 h2
    obtain ⟨ha, hb⟩ := waitTime_small (i - 1) (by omega)
    rw [show ((i - 1 : Nat) : Int) + 1 = (i : Int) by omega] at ha hb
    refine ⟨ha, hb, ?_⟩
    rw [ha, hs]
    omega
  · intro cfg w d hd
    obtain ⟨j, hj, hsl⟩ := loop_sleeps cfg w 10 10 0 none 0 false
    have hd2 : d ∈ (List.range' 0 j).map waitTime := by
      rw [← hsl]
      simpa [TestConnection, sleeps] using hd
    obtain ⟨n, hn, rfl⟩ := List.mem_map.mp hd2
    have hn2 : n < j := by
      have := List.mem_range'_1.mp hn
      omega
    obtain ⟨ha, _⟩ := waitTime_small n (by omega)
    refine ⟨n + 1, by omega, by omega, by simp, ?_⟩
    rw [ha]
    push_cast
    ring

/-- The waits after attempts 1 and 10 are 2 and 20 seconds. -/
theorem waitTime_backoff_witness :
    waitTime (1 - 1) = min ((1 : Nat) * 2 * second) (30 * second) ∧
    (waitTime (10 - 1) = ((10 : Nat) : Int) * 2 * second ∧
      ((10 : Nat) : Int) * 2 * second < 30 * second ∧ waitTime (10 - 1) ≤ 20 * second) :=
  ⟨waitTime_backoff.1 1 (by decide) (by decide), waitTime_backoff.2.1 10 (by decide) (by decide)⟩

/-- C10: with a context that is never cancelled, when every probe fails
`TestConnection` sleeps ten times, for 2, 4, ..., 20 seconds, 110 seconds in
all, the 20 second sleep being its last effect before it returns the error;
when the probe first succeeds on attempt k, for k between 1 and 10, it
sleeps k-1 times for k*(k-1) seconds in all. -/
theorem testConnection_waits (cfg : Config) (w : ProbeWorld)
    (hctx : w.cancelledInWait = none) :
    ((∀ n, w.probe n ≠ none) →
      sleeps (TestConnection cfg w).2 =
        [2 * second, 4 * second, 6 * second, 8 * second, 10 * second, 12 * second,
          14 * second, 16 * second, 18 * second, 20 * second] ∧
      (sleeps (TestConnection cfg w).2).length = 10 ∧
      (sleeps (TestConnection cfg w).2).sum = 110 * second ∧
      (TestConnection cfg w).2.getLast? = some (.sleep (20 * second)) ∧
      (TestConnection cfg w).1 ≠ none) ∧
    (∀ k : Nat, 1 ≤ k → k ≤ 10 → (∀ n, n < k - 1 → w.probe n ≠ none) →
      w.probe (k - 1) = none →
      (sleeps (TestConnection cfg w).2).length = k - 1 ∧
      (sleeps (TestConnection cfg w).2).sum = ((k * (k - 1) : Nat) : Int) * second) := by
  constructor
  · intro hfail
    obtain ⟨h1, _, _, h4⟩ := loop_all_fail cfg w 10 hfail hctx 10 0 none 0
    have hlast := loop_all_fail_last cfg w 10 hfail hctx 9 0 none 0
    have hsl : sleeps (TestConnection cfg w).2 =
        [2 * second, 4 * second, 6 * second, 8 * second, 10 * second, 12 * second,
          14 * second, 16 * second, 18 * second, 20 * second] := by
      rw [← ten_waits, ← h4]
      simp [TestConnection, sleeps]
    refine ⟨hsl, ?_, ?_, ?_, ?_⟩
    · rw [hsl]; rfl
    · rw [hsl]; decide
    · simp only [TestConnection]
      rw [getLast?_cons_of_some _ hlast]
      decide
    · simp only [TestConnection]
      rw [h1]
      exact Option.some_ne_none _
  · intro k hk1 hk10 hfail hok
    obtain ⟨_, _, _, h4⟩ := loop_first_success cfg w 10 hctx (k - 1) 10 0 none 0 (by omega)
      (fun n hn => by simpa using hfail n hn) (by simpa using hok)
    have hsl : sleeps (TestConnection cfg w).2 = (List.range' 0 (k - 1)).map waitTime := by
      rw [← h4]
      simp [TestConnection, sleeps]
    rw [hsl]
    refine ⟨by simp, ?_⟩
    interval_cases k <;> decide

/-- Ten failures give ten sleeps; two failures and a success give two
sleeps of 2 and 4 seconds, 3 * 2 seconds in all. -/
theorem testConnection_waits_witness :
    (sleeps (TestConnection sampleConfig alwaysFailing).2).length = 10 ∧
    (sleeps (TestConnection sampleConfig alwaysFailing).2).sum = 110 * second ∧
    (sleeps (TestConnection sampleConfig succeedsOnThird).2).length = 3 - 1 ∧
    (sleeps (TestConnection sampleConfig succeedsOnThird).2).sum =
      ((3 * (3 - 1) : Nat) : Int) * second :=
  have h1 := (testConnection_waits sampleConfig alwaysFailing rfl).1
    (fun _ h => Option.noConfusion h)
  have h2 := (testConnection_waits sampleConfig succeedsOnThird rfl).2 3 (by decide) (by decide)
    (fun n hn => by simp [succeedsOnThird]; omega) (by simp [succeedsOnThird])
  ⟨h1.2.1, h1.2.2.1, h2.1, h2.2⟩

/-- C4 on the code: with every probe failing and the context cancelled
during the wait after the first attempt, `TestConnection` still sleeps the
whole 2 seconds, goes through the nine remaining iterations (each `cmd.Run`
returns the context error at once, without a process) and sleeps after each,
110 seconds in all, before it returns an error that wraps the context
error; cancelled during the tenth wait, it returns an error that wraps the
exit status of the probe and not the context error. -/
theorem testConnection_sleeps_through_cancellation :
    sleeps (TestConnection sampleConfig cancelledInFirstWait).2 =
      [2 * second, 4 * second, 6 * second, 8 * second, 10 * second, 12 * second,
        14 * second, 16 * second, 18 * second, 20 * second] ∧
    (probeRuns (TestConnection sampleConfig cancelledInFirstWait).2).length = 1 ∧
    (refusedRuns (TestConnection sampleConfig cancelledInFirstWait).2).length = 9 ∧
    (TestConnection sampleConfig cancelledInFirstWait).1 =
      some (.wrapped "failed to connect to PostgreSQL after 10 attempts: context canceled"
        contextCanceled) ∧
    (TestConnection sampleConfig cancelledInLastWait).1 =
      some (.wrapped "failed to connect to PostgreSQL after 10 attempts: exit status 2"
        exitStatus2) ∧
    ((TestConnection sampleConfig cancelledInLastWait).1.map
      (fun e => e.is contextCanceled)) = some false := by
  decide


/-! ## Claims on `Run` -/

/-- The body of the compressed dump neither uploads nor removes anything. -/
theorem gzipBody_no_upload_no_remove (w : DumpWorld) (cmd : Cmd) :
    uploads (gzipBody w cmd).2.2 = [] ∧ removals (gzipBody w cmd).2.2 = [] := by
  simp only [gzipBody]
  cases w.stdoutPipe cmd <;> cases w.cmdStart (cmd.setStdout .pipe).setStderrToHost <;>
    cases w.ioCopy <;> cases w.cmdWait <;> simp [uploads, removals]

/-- The compressed dump neither uploads nor removes anything. -/
theorem runPgDumpWithGzip_no_upload_no_remove (w : DumpWorld) (cmd : Cmd) (p : String) :
    uploads (runPgDumpWithGzip w cmd p).2 = [] ∧ removals (runPgDumpWithGzip w cmd p).2 = [] := by
  obtain ⟨h1, h2⟩ := gzipBody_no_upload_no_remove w cmd
  unfold runPgDumpWithGzip deferGzClose deferFileClose
  simp only [uploads, removals] at h1 h2 ⊢
  cases w.osCreate p with
  | some err => simp
  | none =>
    cases w.gzClose <;> cases (gzipBody w cmd).2.1 <;> simp [List.filterMap_append, h1, h2]

/-- The dump step neither uploads nor removes anything. -/
theorem runPgDump_no_upload_no_remove (cfg : Config) (w : DumpWorld) (p : String) :
    uploads (runPgDump cfg w p).2 = [] ∧ removals (runPgDump cfg w p).2 = [] := by
  unfold runPgDump
  cases pgDumpArgs cfg p with
  | none => simp [uploads, removals]
  | some args =>
    simp only
    by_cases hplain : cfg.PGDumpFormat = "plain"
    · simp only [hplain, if_true]
      cases hc : cfg.Compression
      · simp only [Bool.false_eq_true, if_false]
        cases w.osCreate p with
        | some err => simp [uploads, removals]
        | none =>
          simp only
          cases w.cmdRun ((pgDumpCmd cfg w args).setStdout (.file p)).setStderrToHost <;>
            simp [uploads, removals, deferFileClose]
      · simp only [if_true]
        have h := runPgDumpWithGzip_no_upload_no_remove w (pgDumpCmd cfg w args) p
        simp only [uploads, removals] at h ⊢
        simp [h.1, h.2]
    · simp only [hplain, if_false]
      cases w.cmdRun (pgDumpCmd cfg w args).setStderrToHost <;> simp [uploads, removals]

/-- The deferred removal removes the temp file once and uploads nothing. -/
theorem deferRemove_effects (w : RunWorld) (p : String) :
    uploads (deferRemove w p) = [] ∧ removals (deferRemove w p) = [p] := by
  unfold deferRemove
  constructor <;> split <;> simp [uploads, removals]

/-- The error `Run` returns when the dump step fails. -/
theorem errorf_dump (e : GoError) :
    errorf "failed to run pg_dump: %w" [.err (some e)] =
      .wrapped ("failed to run pg_dump: " ++ e.message) e := by
  have hs : sprintf "failed to run pg_dump: %w" [.err (some e)] =
      "failed to run pg_dump: " ++ e.message := by
    apply String.ext
    simp [sprintf, sprintfChars, renderVerb, String.data_append]
  have hw : wrapOperand "failed to run pg_dump: %w".toList [.err (some e)] = some e := rfl
  simp only [errorf, hw, hs]

/-- The error `Run` returns when the upload fails. -/
theorem errorf_upload (e : GoError) :
    errorf "failed to upload backup: %w" [.err (some e)] =
      .wrapped ("failed to upload backup: " ++ e.message) e := by
  have hs : sprintf "failed to upload backup: %w" [.err (some e)] =
      "failed to upload backup: " ++ e.message := by
    apply String.ext
    simp [sprintf, sprintfChars, renderVerb, String.data_append]
  have hw : wrapOperand "failed to upload backup: %w".toList [.err (some e)] = some e := rfl
  simp only [errorf, hw, hs]

/-- C5: when the dump step returns an error `e`, `Run` returns an error
that wraps `e`, never calls `Upload`, and removes the temp file path, once,
after the effects of the dump step. -/
theorem run_dump_failure (cfg : Config) (w : RunWorld) (e : GoError)
    (hdump : (runPgDump cfg w.dump (w.join w.tempDir (generateBackupName cfg w.now))).1 =
      .returned (some e)) :
    (Run cfg w).1 = .returned (some (.wrapped ("failed to run pg_dump: " ++ e.message) e)) ∧
    uploads (Run cfg w).2 = [] ∧
    removals (Run cfg w).2 = [w.join w.tempDir (generateBackupName cfg w.now)] ∧
    (Run cfg w).2 =
      .logPrintln "Starting backup process..." ::
        (runPgDump cfg w.dump (w.join w.tempDir (generateBackupName cfg w.now))).2 ++
        deferRemove w (w.join w.tempDir (generateBackupName cfg w.now)) := by
  obtain ⟨hu, hr⟩ := runPgDump_no_upload_no_remove cfg w.dump
    (w.join w.tempDir (generateBackupName cfg w.now))
  obtain ⟨hu2, hr2⟩ := deferRemove_effects w (w.join w.tempDir (generateBackupName cfg w.now))
  have htr : (Run cfg w).2 =
      .logPrintln "Starting backup process..." ::
        (runPgDump cfg w.dump (w.join w.tempDir (generateBackupName cfg w.now))).2 ++
        deferRemove w (w.join w.tempDir (generateBackupName cfg w.now)) := by
    simp only [Run, hdump]
  refine ⟨?_, ?_, ?_, htr⟩
  · simp only [Run, hdump, errorf_dump]
  · rw [htr]
    simp only [uploads] at hu hu2 ⊢
    simp [List.filterMap_append, hu, hu2]
  · rw [htr]
    simp only [removals] at hr hr2 ⊢
    simp [List.filterMap_append, hr, hr2]


/-- A custom-format dump whose process exits with status 2: the run fails
with the wrapped error, uploads nothing and removes the temp file. -/
theorem run_dump_failure_witness :
    (Run sampleConfig (sampleRun failingDump none)).1 =
      .returned (some (.wrapped "failed to run pg_dump: pg_dump failed: exit status 2"
        (.wrapped "pg_dump failed: exit status 2" exitStatus2))) ∧
    uploads (Run sampleConfig (sampleRun failingDump none)).2 = [] ∧
    removals (Run sampleConfig (sampleRun failingDump none)).2 =
      ["/tmp/pg-backup_appdb_2024-03-05_07-08-09.dump"] :=
  have h := run_dump_failure sampleConfig (sampleRun failingDump none)
    (.wrapped "pg_dump failed: exit status 2" exitStatus2) (by decide)
  ⟨h.1.trans (by decide), h.2.1, h.2.2.1.trans (by decide)⟩

/-- C6: when the dump step succeeds and `Upload` fails with `e`, `Run`
calls `Upload` exactly once, with the temp file path and the generated
backup name, returns an error that wraps `e`, and removes the temp file
path, once, after the upload. -/
theorem run_upload_failure (cfg : Config) (w : RunWorld) (e : GoError)
    (hdump : (runPgDump cfg w.dump (w.join w.tempDir (generateBackupName cfg w.now))).1 =
      .returned none)
    (hup : w.upload (w.join w.tempDir (generateBackupName cfg w.now))
      (generateBackupName cfg w.now) = some e) :
    (Run cfg w).1 = .returned (some (.wrapped ("failed to upload backup: " ++ e.message) e)) ∧
    uploads (Run cfg w).2 =
      [(w.join w.tempDir (generateBackupName cfg w.now), generateBackupName cfg w.now)] ∧
    removals (Run cfg w).2 = [w.join w.tempDir (generateBackupName cfg w.now)] ∧
    (Run cfg w).2 =
      .logPrintln "Starting backup process..." ::
        (runPgDump cfg w.dump (w.join w.tempDir (generateBackupName cfg w.now))).2 ++
        [.upload (w.join w.tempDir (generateBackupName cfg w.now))
          (generateBackupName cfg w.now)] ++
        deferRemove w (w.join w.tempDir (generateBackupName cfg w.now)) := by
  obtain ⟨hu, hr⟩ := runPgDump_no_upload_no_remove cfg w.dump
    (w.join w.tempDir (generateBackupName cfg w.now))
  obtain ⟨hu2, hr2⟩ := deferRemove_effects w (w.join w.tempDir (generateBackupName cfg w.now))
  have htr : (Run cfg w).2 =
      .logPrintln "Starting backup process..." ::
        (runPgDump cfg w.dump (w.join w.tempDir (generateBackupName cfg w.now))).2 ++
        [.upload (w.join w.tempDir (generateBackupName cfg w.now))
          (generateBackupName cfg w.now)] ++
        deferRemove w (w.join w.tempDir (generateBackupName cfg w.now)) := by
    simp only [Run, hdump, hup]
  refine ⟨?_, ?_, ?_, htr⟩
  · simp only [Run, hdump, hup, errorf_upload]
  · rw [htr]
    simp only [uploads] at hu hu2 ⊢
    simp [List.filterMap_append, hu, hu2]
  · rw [htr]
    simp only [removals] at hr hr2 ⊢
    simp [List.filterMap_append, hr, hr2]

/-- A successful custom-format dump whose upload is refused: one upload of
the temp file under the backup name, the wrapped error, and the removal. -/
theorem run_upload_failure_witness :
    (Run sampleConfig (sampleRun healthyDump (some (.external "access denied")))).1 =
      .returned (some (.wrapped "failed to upload backup: access denied"
        (.external "access denied"))) ∧
    uploads (Run sampleConfig (sampleRun healthyDump (some (.external "access denied")))).2 =
      [("/tmp/pg-backup_appdb_2024-03-05_07-08-09.dump",
        "pg-backup_appdb_2024-03-05_07-08-09.dump")] ∧
    removals (Run sampleConfig (sampleRun healthyDump (some (.external "access denied")))).2 =
      ["/tmp/pg-backup_appdb_2024-03-05_07-08-09.dump"] :=
  have h := run_upload_failure sampleConfig
    (sampleRun healthyDump (some (.external "access denied"))) (.external "access denied")
    (by decide) rfl
  ⟨h.1.trans (by decide), h.2.1.trans (by decide), h.2.2.1.trans (by decide)⟩


/-! ## Claims on the dump step -/

/-- A configuration passes `validate` only with one of the four formats. -/
theorem validate_formats (cfg : Config) (h : cfg.validate = none) :
    cfg.PGDumpFormat = "plain" ∨ cfg.PGDumpFormat = "custom" ∨
      cfg.PGDumpFormat = "directory" ∨ cfg.PGDumpFormat = "tar" := by
  unfold Config.validate at h
  simp only [mapLookup, List.find?] at h
  by_cases h1 : cfg.PGDumpFormat = "plain"
  · exact Or.inl h1
  by_cases h2 : cfg.PGDumpFormat = "custom"
  · exact Or.inr (Or.inl h2)
  by_cases h3 : cfg.PGDumpFormat = "directory"
  · exact Or.inr (Or.inr (Or.inl h3))
  by_cases h4 : cfg.PGDumpFormat = "tar"
  · exact Or.inr (Or.inr (Or.inr h4))
  exfalso
  have e1 : ("plain" == cfg.PGDumpFormat) = false := by simpa using fun h => h1 h.symm
  have e2 : ("custom" == cfg.PGDumpFormat) = false := by simpa using fun h => h2 h.symm
  have e3 : ("directory" == cfg.PGDumpFormat) = false := by simpa using fun h => h3 h.symm
  have e4 : ("tar" == cfg.PGDumpFormat) = false := by simpa using fun h => h4 h.symm
  simp [e1, e2, e3, e4] at h

/-- What the scan of `strings.Fields` produces: every field is non-empty
and free of white space, and the fields, put end to end, are the field
being read followed by the characters still to scan that are not white
space. -/
theorem fieldsChars_spec : ∀ (cs cur : List Char), (∀ ch ∈ cur, isSpace ch = false) →
    (∀ tok ∈ fieldsChars cs cur, tok ≠ "" ∧ ∀ ch ∈ tok.toList, isSpace ch = false) ∧
    ((fieldsChars cs cur).map String.toList).flatten =
      cur ++ cs.filter (fun c => !isSpace c) := by
  intro cs
  induction cs with
  | nil =>
    intro cur hcur
    cases cur with
    | nil => simp [fieldsChars]
    | cons c cur =>
      simp only [fieldsChars, List.isEmpty_cons, Bool.false_eq_true, if_false]
      refine ⟨?_, by simp⟩
      intro tok htok
      simp only [List.mem_singleton] at htok
      subst htok
      exact ⟨by simp [String.ext_iff], hcur⟩
  | cons c cs ih =>
    intro cur hcur
    by_cases hsp : isSpace c = true
    · cases cur with
      | nil =>
        simpa [fieldsChars, hsp] using ih [] (by simp)
      | cons d cur =>
        obtain ⟨h1, h2⟩ := ih [] (by simp)
        simp only [fieldsChars, hsp, if_true, List.isEmpty_cons, Bool.false_eq_true, if_false]
        refine ⟨?_, by simp [h2, hsp]⟩
        intro tok htok
        rcases List.mem_cons.mp htok with rfl | htok
        · exact ⟨by simp [String.ext_iff], hcur⟩
        · exact h1 tok htok
    · have hsp2 : isSpace c = false := by simpa using hsp
      obtain ⟨h1, h2⟩ := ih (cur ++ [c]) (by
        intro ch hch
        rcases List.mem_append.mp hch with h | h
        · exact hcur ch h
        · simp only [List.mem_singleton] at h; subst h; exact hsp2)
      simp only [fieldsChars, hsp2, Bool.false_eq_true, if_false]
      exact ⟨h1, by simp [h2, hsp2]⟩

/-- The only process the compressed dump starts is the command it is given,
with its output piped and its errors forwarded. -/
theorem runPgDumpWithGzip_started (w : DumpWorld) (cmd : Cmd) (p : String) :
    ∀ c ∈ startedCmds (runPgDumpWithGzip w cmd p).2,
      c = (cmd.setStdout .pipe).setStderrToHost := by
  simp only [runPgDumpWithGzip, gzipBody, deferGzClose, deferFileClose]
  cases w.osCreate p <;> cases w.stdoutPipe cmd <;>
    cases w.cmdStart (cmd.setStdout .pipe).setStderrToHost <;>
    cases w.ioCopy <;> cases w.cmdWait <;> cases w.gzClose <;> simp [startedCmds]

/-- Every process the dump step starts is `pg_dump` with the arguments of
`pgDumpArgs`, and the step panics only when `pgDumpArgs` does. -/
theorem runPgDump_started (cfg : Config) (w : DumpWorld) (p : String) (args : List String)
    (hargs : pgDumpArgs cfg p = some args) :
    (∀ m, (runPgDump cfg w p).1 ≠ .panicked m) ∧
    ∀ c ∈ startedCmds (runPgDump cfg w p).2, c.name = "pg_dump" ∧ c.args = args := by
  simp only [runPgDump, hargs]
  by_cases hplain : cfg.PGDumpFormat = "plain"
  · simp only [hplain, if_true]
    cases hc : cfg.Compression
    · simp only [Bool.false_eq_true, if_false]
      cases w.osCreate p with
      | some err => simp [startedCmds]
      | none =>
        simp only
        cases w.cmdRun ((pgDumpCmd cfg w args).setStdout (.file p)).setStderrToHost <;>
          simp [startedCmds, deferFileClose, pgDumpCmd, Cmd.setStdout, Cmd.setStderrToHost]
    · simp only [if_true]
      refine ⟨by simp, ?_⟩
      intro c hc
      have h := runPgDumpWithGzip_started w (pgDumpCmd cfg w args) p c
        (by simpa [startedCmds] using hc)
      subst h
      exact ⟨rfl, rfl⟩
  · simp only [hplain, if_false]
    cases w.cmdRun (pgDumpCmd cfg w args).setStderrToHost <;>
      simp [startedCmds, pgDumpCmd, Cmd.setStderrToHost]

/-- C7: for a configuration that passes `validate` (format plain, custom,
directory or tar) and any output path, indexing the first character of the
format does not panic and the arguments `runPgDump` passes to `pg_dump` are
`-h host -p port -U user -d database -F c`, then `-f path` unless the format
is plain, then the fields of the extra options, where `c` is the first
character of the format (`p`, `c`, `d` or `t`); every process the dump step
starts gets exactly these arguments; the fields are the non-empty,
white-space-free pieces of the options string, in order, and together hold
all its characters that are not white space. -/
theorem runPgDump_args (cfg : Config) (p : String) (hvalid : cfg.validate = none) :
    pgDumpArgs cfg p =
      some (["-h", cfg.PGHost, "-p", cfg.PGPort, "-U", cfg.PGUser, "-d", cfg.PGDatabase,
          "-F", String.singleton (cfg.PGDumpFormat.get 0)] ++
        (if cfg.PGDumpFormat ≠ "plain" then ["-f", p] else []) ++
        fields cfg.PGDumpOptions) ∧
    String.singleton (cfg.PGDumpFormat.get 0) =
      (if cfg.PGDumpFormat = "plain" then "p"
       else if cfg.PGDumpFormat = "custom" then "c"
       else if cfg.PGDumpFormat = "directory" then "d"
       else "t") ∧
    (∀ w : DumpWorld, (∀ m, (runPgDump cfg w p).1 ≠ .panicked m) ∧
      ∀ c ∈ startedCmds (runPgDump cfg w p).2, c.name = "pg_dump" ∧ some c.args = pgDumpArgs cfg p) ∧
    (∀ tok ∈ fields cfg.PGDumpOptions, tok ≠ "" ∧ ∀ ch ∈ tok.toList, isSpace ch = false) ∧
    ((fields cfg.PGDumpOptions).map String.toList).flatten =
      cfg.PGDumpOptions.toList.filter (fun c => !isSpace c) := by
  have hfields := fieldsChars_spec cfg.PGDumpOptions.toList [] (by simp)
  have hopt : (if cfg.PGDumpOptions ≠ "" then fields cfg.PGDumpOptions else []) =
      fields cfg.PGDumpOptions := by
    by_cases h : cfg.PGDumpOptions = ""
    · simp [h, fields, fieldsChars]
    · simp [h]
  have hargs : pgDumpArgs cfg p =
      some (["-h", cfg.PGHost, "-p", cfg.PGPort, "-U", cfg.PGUser, "-d", cfg.PGDatabase,
          "-F", String.singleton (cfg.PGDumpFormat.get 0)] ++
        (if cfg.PGDumpFormat ≠ "plain" then ["-f", p] else []) ++
        fields cfg.PGDumpOptions) := by
    rw [← hopt]
    rcases validate_formats cfg hvalid with h | h | h | h <;>
      by_cases ho : cfg.PGDumpOptions = "" <;>
      simp [pgDumpArgs, h, ho, byteAt0, utf8FirstByte, stringOfByte] <;> decide
  refine ⟨hargs, ?_, ?_, hfields.1, ?_⟩
  · rcases validate_formats cfg hvalid with h | h | h | h <;> rw [h] <;> decide
  · intro w
    obtain ⟨h1, h2⟩ := runPgDump_started cfg w p _ hargs
    refine ⟨h1, ?_⟩
    intro c hc
    rw [hargs, (h2 c hc).2]
    exact ⟨(h2 c hc).1, rfl⟩
  · simpa [fields] using hfields.2


/-- A custom-format dump with extra options: the output path follows the
format flag, and the options are split at white space. -/
theorem runPgDump_args_witness :
    pgDumpArgs sampleConfigWithOptions "/tmp/out.dump" =
      some ["-h", "localhost", "-p", "5432", "-U", "postgres", "-d", "appdb", "-F", "c",
        "-f", "/tmp/out.dump", "--no-owner", "-Z", "9"] :=
  (runPgDump_args sampleConfigWithOptions "/tmp/out.dump" (by decide)).1.trans (by decide)

/-- C9 as stated fails: when the dump process cannot be started, the gzip
writer is closed although the process was never awaited; and when the
process exits with status 2, the gzip writer is closed after a wait that
did not confirm a successful exit. -/
theorem gzip_closed_without_successful_wait :
    (Event.gzClose ∈ (runPgDumpWithGzip startFails sampleDumpCmd "/tmp/out.sql.gz").2 ∧
      Event.cmdWait ∉ (runPgDumpWithGzip startFails sampleDumpCmd "/tmp/out.sql.gz").2) ∧
    (Event.gzClose ∈ (runPgDumpWithGzip waitFails sampleDumpCmd "/tmp/out.sql.gz").2 ∧
      waitFails.cmdWait = some exitStatus2 ∧
      (runPgDumpWithGzip waitFails sampleDumpCmd "/tmp/out.sql.gz").1 ≠ none) := by
  decide

/-- The effects of the compressed dump once the output file exists: the
effects of the body, then the close of the gzip writer, then the close of
the file, each close followed at most by its warning. -/
theorem runPgDumpWithGzip_trace (w : DumpWorld) (cmd : Cmd) (p : String)
    (hcreate : w.osCreate p = none) :
    (runPgDumpWithGzip w cmd p).2 =
      ([.osCreate p, .gzipNewWriter] ++ (gzipBody w cmd).2.2) ++ deferGzClose w ++
        deferFileClose w (gzipBody w cmd).2.1 ∧
    (runPgDumpWithGzip w cmd p).1 = (gzipBody w cmd).1 := by
  simp only [runPgDumpWithGzip, hcreate, List.append_assoc, and_self]

/-- The body of the compressed dump closes nothing; it returns nil only
after a wait that returned nil, the wait being its last effect. -/
theorem gzipBody_spec (w : DumpWorld) (cmd : Cmd) :
    Event.gzClose ∉ (gzipBody w cmd).2.2 ∧ Event.fileClose ∉ (gzipBody w cmd).2.2 ∧
    ((gzipBody w cmd).1 = none →
      w.cmdWait = none ∧ (gzipBody w cmd).2.2.getLast? = some .cmdWait) ∧
    (Event.cmdWait ∈ (gzipBody w cmd).2.2 → (gzipBody w cmd).2.2.getLast? = some .cmdWait) := by
  simp only [gzipBody]
  cases w.stdoutPipe cmd <;> cases w.cmdStart (cmd.setStdout .pipe).setStderrToHost <;>
    cases w.ioCopy <;> cases w.cmdWait <;> simp

/-- C9, amended: when the output file cannot be created, the compressed
dump closes nothing. Otherwise its effects are, in order: the steps of the
body (file creation, gzip writer, pipe, start, copy, wait, as far as they
get), among which there is no close; the close of the gzip writer; at most
a warning; the close of the destination file; at most a warning. So the
gzip writer is closed exactly once, after every other step and hence after
the wait whenever the process was awaited, and the file is closed after it,
on the failure paths as well; and when the function returns nil, the wait
returned nil and is the last step before the gzip writer is closed. -/
theorem runPgDumpWithGzip_close_order (w : DumpWorld) (cmd : Cmd) (p : String) :
    (w.osCreate p ≠ none →
      Event.gzClose ∉ (runPgDumpWithGzip w cmd p).2 ∧
      Event.fileClose ∉ (runPgDumpWithGzip w cmd p).2) ∧
    (w.osCreate p = none →
      ∃ body gzLog fileLog : List Event,
        (runPgDumpWithGzip w cmd p).2 =
          body ++ [.gzClose] ++ gzLog ++ [.fileClose] ++ fileLog ∧
        Event.gzClose ∉ body ∧ Event.fileClose ∉ body ∧
        (∀ e ∈ gzLog ++ fileLog, ∃ f a, e = .logPrintf f a) ∧
        (Event.cmdWait ∈ (runPgDumpWithGzip w cmd p).2 → body.getLast? = some .cmdWait) ∧
        ((runPgDumpWithGzip w cmd p).1 = none →
          w.cmdWait = none ∧ body.getLast? = some .cmdWait)) := by
  constructor
  · intro hcreate
    obtain ⟨err, herr⟩ := Option.ne_none_iff_exists'.mp hcreate
    simp [runPgDumpWithGzip, herr]
  · intro hcreate
    obtain ⟨htr, hres⟩ := runPgDumpWithGzip_trace w cmd p hcreate
    obtain ⟨hgz, hfile, hnil, hwait⟩ := gzipBody_spec w cmd
    refine ⟨[.osCreate p, .gzipNewWriter] ++ (gzipBody w cmd).2.2, (deferGzClose w).tail,
      (deferFileClose w (gzipBody w cmd).2.1).tail, ?_, ?_, ?_, ?_, ?_, ?_⟩
    · rw [htr]
      simp [deferGzClose, deferFileClose]
    · simpa using hgz
    · simpa using hfile
    · intro e he
      rcases List.mem_append.mp he with h | h
      · simp only [deferGzClose, List.tail_cons] at h
        cases hw : w.gzClose with
        | none => simp [hw] at h
        | some x =>
          simp only [hw, List.mem_singleton] at h
          exact ⟨_, _, h⟩
      · simp only [deferFileClose, List.tail_cons] at h
        cases hb : (gzipBody w cmd).2.1 with
        | none => simp [hb] at h
        | some x =>
          simp only [hb, List.mem_singleton] at h
          exact ⟨_, _, h⟩
    · intro hmem
      have hbody : Event.cmdWait ∈ (gzipBody w cmd).2.2 := by
        rw [htr] at hmem
        simp only [deferGzClose, deferFileClose] at hmem
        cases hw : w.gzClose <;> cases hb : (gzipBody w cmd).2.1 <;>
          simpa [hw, hb] using hmem
      have hl := hwait hbody
      exact getLast?_cons_of_some _ (getLast?_cons_of_some _ hl)
    · intro hret
      rw [hres] at hret
      obtain ⟨h1, h2⟩ := hnil hret
      exact ⟨h1, getLast?_cons_of_some _ (getLast?_cons_of_some _ h2)⟩

/-- A compressed dump in which everything succeeds: creation, gzip writer,
pipe, start, copy, wait, then the two closes. -/
theorem runPgDumpWithGzip_close_order_witness :
    ∃ body gzLog fileLog : List Event,
      (runPgDumpWithGzip healthyDump sampleDumpCmd "/tmp/out.sql.gz").2 =
        body ++ [.gzClose] ++ gzLog ++ [.fileClose] ++ fileLog ∧
      Event.gzClose ∉ body ∧ Event.fileClose ∉ body ∧
      (∀ e ∈ gzLog ++ fileLog, ∃ f a, e = .logPrintf f a) ∧
      (Event.cmdWait ∈ (runPgDumpWithGzip healthyDump sampleDumpCmd "/tmp/out.sql.gz").2 →
        body.getLast? = some .cmdWait) ∧
      ((runPgDumpWithGzip healthyDump sampleDumpCmd "/tmp/out.sql.gz").1 = none →
        healthyDump.cmdWait = none ∧ body.getLast? = some .cmdWait) :=
  (runPgDumpWithGzip_close_order healthyDump sampleDumpCmd "/tmp/out.sql.gz").2 rfl


end PgBackup
